import Mathlib

/-!
# N76E003 SimpleSerial test firmware: handlers, trigger line and IAP reads

A shallow embedding of `simpleserial-n76-test.c` and of the trigger functions
of `hal.c`.  Every handler is a function from the machine state before the
call to the returned status byte and the machine state after it.  What a
handler does to the outside world (trigger pin, serial responses, IAP
operations, stores into the two static arrays) is appended to an event log
kept in the state, so that order and number of these effects can be stated.

Machine integers are natural numbers, reduced modulo `2^w` where the C code
can wrap (`uint8_t` loop index, the 8-bit register `IAPAL`, the 16/32-bit
counters of `glitch_loop`).
-/

namespace N76

/-! ## Data model -/

/-- The two static arrays of `simpleserial-n76-test.c` that handlers store into:
`static uint8_t ROM_DATA[128]` and `static uint8_t __data hircmap[12]`. -/
inductive BufId
  | ROM_DATA
  | hircmap
  deriving DecidableEq, Repr

/-- Externally visible actions, in program order.  `cmp` is a ghost event: it
marks one evaluation of `pw[cnt] != passwd[cnt]` in `password`. -/
inductive Event
  | trigger_high
  | trigger_low
  | put (c size : Nat) (data : List Nat)
  | putch (c : Nat)
  | led_ok (v : Nat)
  | led_error (v : Nat)
  | iapgo (cn ah al : Nat)
  | store (b : BufId) (idx val : Nat)
  | cmp (cnt : Nat)
  deriving DecidableEq, Repr

/-- Machine state: the trigger pin `P04`, the IAP special function registers,
the RC trim registers, the two static arrays and the event log. -/
structure HW where
  P04 : Nat
  IAPEN : Nat
  IAPCN : Nat
  IAPAH : Nat
  IAPAL : Nat
  IAPFD : Nat
  RCTRIM0 : Nat
  RCTRIM1 : Nat
  ROM_DATA : List Nat
  hircmap : List Nat
  log : List Event
  deriving DecidableEq, Repr

/-- An input pointer `uint8_t* in`: the byte found at each offset from it. -/
abbrev Buf := Nat → Nat

/-- The buffer that holds the bytes of `l` at offsets `0 .. l.length - 1`. -/
def bufOf (l : List Nat) : Buf := fun i => l.getD i 0

/-- The `len` bytes found at a pointer, in order: the payload of a request. -/
def payloadOf (inb : Buf) (len : Nat) : List Nat := (List.range len).map inb

/-- An output pointer `uint8_t *buf`: a static array and an offset into it
(`ROM_DATA` is offset 0 of `ROM_DATA`, `&hircmap[2]` is offset 2 of `hircmap`). -/
structure Ptr where
  base : BufId
  off : Nat
  deriving DecidableEq, Repr

/-- The flash/ID space behind the IAP interface: the byte the hardware puts in
`IAPFD` for a command `IAPCN` at address `IAPAH:IAPAL`. -/
abbrev IAPDev := Nat → Nat → Nat → Nat

/-- Constants of the headers `simpleserial.h` and `isp_uart0.h`, which are not
part of the sources at hand; they are taken as parameters. -/
structure Consts where
  SS_ERR_OK : Nat
  SS_ERR_LEN : Nat
  READ_UID : Nat
  deriving DecidableEq, Repr

/-- The build-time protocol variant `SS_VER`. -/
inductive SSVer
  | V1_1
  | V2_1
  deriving DecidableEq, Repr

/-- Byte order in which the compiler lays out a `uint32_t` in memory. -/
inductive ByteOrder
  | little
  | big
  deriving DecidableEq, Repr

/-- The four bytes found at `(uint8_t*)&cnt` for a 32-bit `cnt`. -/
def u32Bytes (bo : ByteOrder) (cnt : Nat) : List Nat :=
  match bo with
  | .little => [cnt % 256, cnt / 256 % 256, cnt / 65536 % 256, cnt / 16777216 % 256]
  | .big => [cnt / 16777216 % 256, cnt / 65536 % 256, cnt / 256 % 256, cnt % 256]

/-- The 32-bit value that four bytes in memory stand for. -/
def u32OfBytes (bo : ByteOrder) (bs : List Nat) : Nat :=
  match bo with
  | .little => bs.getD 0 0 + 256 * bs.getD 1 0 + 65536 * bs.getD 2 0 + 16777216 * bs.getD 3 0
  | .big => bs.getD 3 0 + 256 * bs.getD 2 0 + 65536 * bs.getD 1 0 + 16777216 * bs.getD 0 0

/-! ## hal.c -/

/-- Append one event to the log. -/
def emit (e : Event) (s : HW) : HW := { s with log := s.log ++ [e] }

/-- The hal.c function `trigger_setup`: `P04 = 0; P04_QUASI_MODE;` (the pin mode is not modelled). -/
def trigger_setup (s : HW) : HW := { s with P04 := 0 }

/-- The hal.c function `trigger_low`: `P04 = 0;`. -/
def trigger_low (s : HW) : HW := emit .trigger_low { s with P04 := 0 }

/-- The hal.c function `trigger_high`: `P04 = 1;`. -/
def trigger_high (s : HW) : HW := emit .trigger_high { s with P04 := 1 }

/-- The hal.c function `putch`: one byte sent on the serial line. -/
def putch (c : Nat) (s : HW) : HW := emit (.putch c) s

/-- The call `led_ok(status)` (its body is not among the sources); only the
call is recorded. -/
def led_ok (v : Nat) (s : HW) : HW := emit (.led_ok v) s

/-- The call `led_error(status)` (its body is not among the sources); only the
call is recorded. -/
def led_error (v : Nat) (s : HW) : HW := emit (.led_error v) s

/-- Modelled from the spec: `simpleserial_put` is declared in `simpleserial.h`,
which is not among the sources.  The spec's Response is
`{ type_tag: byte, len: byte, data: bytes[len] }`; a call
`simpleserial_put(c, size, output)` is recorded as one response event carrying
the tag, the size and the `size` bytes found at `output`. -/
def simpleserial_put (c size : Nat) (data : List Nat) (s : HW) : HW :=
  emit (.put c size data) s

/-! ## IAP primitives (vendor macros) -/

/-- Modelled from the spec: the vendor macro `set_IAPEN` is not among the
sources; it opens the in-application-programming sequence by setting the IAP
enable bit. -/
def set_IAPEN (s : HW) : HW := { s with IAPEN := 1 }

/-- Modelled from the spec: the vendor macro `clr_IAPEN` is not among the
sources; it closes the sequence by clearing the IAP enable bit. -/
def clr_IAPEN (s : HW) : HW := { s with IAPEN := 0 }

/-- Modelled from the spec: the vendor macro `set_IAPGO` is not among the
sources; it starts one step of the sequence: the hardware runs the command in
`IAPCN` at address `IAPAH:IAPAL` and leaves the byte read in `IAPFD`. -/
def set_IAPGO (dev : IAPDev) (s : HW) : HW :=
  emit (.iapgo s.IAPCN s.IAPAH s.IAPAL)
    { s with IAPFD := dev s.IAPCN s.IAPAH s.IAPAL % 256 }

/-- The assignment `buf[i] = v` through an output pointer. -/
def store (buf : Ptr) (i v : Nat) (s : HW) : HW :=
  match buf.base with
  | .ROM_DATA =>
    emit (.store .ROM_DATA (buf.off + i) v) { s with ROM_DATA := s.ROM_DATA.set (buf.off + i) v }
  | .hircmap =>
    emit (.store .hircmap (buf.off + i) v) { s with hircmap := s.hircmap.set (buf.off + i) v }

/-! ## simpleserial-n76-test.c -/

/-- The inner loop of `glitch_loop`: `for(j=0; j<50; j++){ cnt++; }`, entered
with the current `j` and `cnt` (`uint16_t` and `uint32_t`). -/
def glitch_loop_inner (j cnt : Nat) : Nat × Nat :=
  if j < 50 then
    glitch_loop_inner ((j + 1) % 65536) ((cnt + 1) % 4294967296)
  else (j, cnt)
termination_by 50 - j
decreasing_by omega

/-- The outer loop of `glitch_loop`: `for(i=0; i<50; i++){ for(j=0; ...) }`. -/
def glitch_loop_outer (i j cnt : Nat) : Nat × Nat × Nat :=
  if i < 50 then
    let r := glitch_loop_inner 0 cnt
    glitch_loop_outer ((i + 1) % 65536) r.1 r.2
  else (i, j, cnt)
termination_by 50 - i
decreasing_by omega

/-- The handler `glitch_loop`. -/
def glitch_loop (ver : SSVer) (bo : ByteOrder) (_inb : Buf) (_len : Nat) (s : HW) : Nat × HW :=
  let cnt := 0
  let s := trigger_high s
  let r := glitch_loop_outer 0 0 cnt
  let cnt := r.2.2
  let s := trigger_low s
  let s := simpleserial_put 0x72 4 (u32Bytes bo cnt) s
  match ver with
  | .V2_1 => (if cnt ≠ 2500 then 0x10 else 0x00, s)
  | .V1_1 => (if cnt ≠ 2500 then 1 else 0, s)

/-- The handler `glitch_comparison`. -/
def glitch_comparison (inb : Buf) (_len : Nat) (s : HW) : Nat × HW :=
  let s := trigger_high s
  let ok := if inb 0 = 0xA2 then 1 else 0
  let s := trigger_low s
  let s := simpleserial_put 0x72 1 [ok] s
  (0x00, s)

/-- The array `char passwd[] = "touch";` of `password`. -/
def passwd (i : Nat) : Nat := [0x74, 0x6F, 0x75, 0x63, 0x68, 0].getD i 0

/-- The loop of `password`:
`for(cnt = 0; cnt < 5; cnt++){ if (pw[cnt] != passwd[cnt]){ passok = 0; } }`. -/
def password_loop (pw : Buf) (cnt passok : Nat) (s : HW) : Nat × Nat × HW :=
  if cnt < 5 then
    let s := emit (.cmp cnt) s
    let passok := if pw cnt ≠ passwd cnt then 0 else passok
    password_loop pw (cnt + 1) passok s
  else (cnt, passok, s)
termination_by 5 - cnt
decreasing_by omega

/-- The handler `password`. -/
def password (pw : Buf) (_len : Nat) (s : HW) : Nat × HW :=
  let passok := 1
  let s := trigger_high s
  let r := password_loop pw 0 passok s
  let passok := r.2.1
  let s := trigger_low r.2.2
  let s := simpleserial_put 0x72 1 [passok] s
  (0x00, s)

/-- The loop `while(a != 2){ ; }` of `infinite_loop`, run for at most `fuel`
tests of its condition; `none` when it is still spinning after that. -/
def spin (fuel : Nat) (a : Nat) : Option Unit :=
  match fuel with
  | 0 => none
  | n + 1 => if a ≠ 2 then spin n a else some ()

/-- The handler `infinite_loop`.  The status is `none`, and the state is the
one at the loop, when the loop is still spinning after `fuel` tests. -/
def infinite_loop (fuel : Nat) (_inb : Buf) (_len : Nat) (s : HW) : Option Nat × HW :=
  let s := led_ok 1 s
  let s := led_error 0 s
  let a := 0
  let s := trigger_high s
  let s := trigger_low s
  match spin fuel a with
  | none => (none, s)
  | some _ =>
    let s := (List.replicate 9 1).foldl (fun t v => led_error v t) s
    let s := [0x72, 0x42, 0x52, 0x45, 0x41, 0x4B, 0x4F, 0x55, 0x54, 0x0A].foldl
      (fun t c => putch c t) s
    let s := (List.replicate 8 1).foldl (fun t v => led_error v t) s
    (some 0, s)

/-- The loop of `BYTE_READ_FUNC`:
`for (i = 0; i < len - 1; i++) { set_IAPGO; buf[i] = IAPFD; IAPAL++; }`.
`len` and `i` are `uint8_t`; the test `i < len - 1` is done on `int`. -/
def BYTE_READ_loop (dev : IAPDev) (len : Nat) (buf : Ptr) (i : Nat) (s : HW) : Nat × HW :=
  if (i : Int) < ((len % 256 : Nat) : Int) - 1 then
    let s := set_IAPGO dev s
    let s := store buf i s.IAPFD s
    let s := { s with IAPAL := (s.IAPAL + 1) % 256 }
    BYTE_READ_loop dev len buf ((i + 1) % 256) s
  else (i, s)
termination_by len % 256 - i
decreasing_by omega

/-- The function `BYTE_READ_FUNC(cmd, start, len, buf)`. -/
def BYTE_READ_FUNC (dev : IAPDev) (cmd start len : Nat) (buf : Ptr) (s : HW) : HW :=
  let s := set_IAPEN s
  let s := { s with IAPCN := cmd }
  let s := { s with IAPAH := (start >>> 8) &&& 0xFF }
  let s := { s with IAPAL := start &&& 0xFF }
  let r := BYTE_READ_loop dev len buf 0 s
  let i := r.1
  let s := set_IAPGO dev r.2
  let s := store buf i s.IAPFD s
  clr_IAPEN s

/-- The handler `get_rc_trim_values`. -/
def get_rc_trim_values (K : Consts) (dev : IAPDev) (_inb : Buf) (_len : Nat) (s : HW) : Nat × HW :=
  let s := store ⟨.hircmap, 0⟩ 0 s.RCTRIM0 s
  let s := store ⟨.hircmap, 0⟩ 1 s.RCTRIM1 s
  let s := BYTE_READ_FUNC dev K.READ_UID 0x30 10 ⟨.hircmap, 2⟩ s
  let s := simpleserial_put 0x72 12 (s.hircmap.take 12) s
  (0x00, s)

/-- The handler `get_data`. -/
def get_data (K : Consts) (dev : IAPDev) (inb : Buf) (len : Nat) (s : HW) : Nat × HW :=
  if len < 4 then (K.SS_ERR_LEN, s)
  else
    let IAPcmd := inb 0
    if IAPcmd &&& 0x20 ≠ 0 then (0x18, s)
    else
      let start := (inb 1 ||| (inb 2 <<< 8)) % 65536
      let length := inb 3
      if length > 128 then (0x17, s)
      else
        let s := BYTE_READ_FUNC dev IAPcmd start length ⟨.ROM_DATA, 0⟩ s
        let s := simpleserial_put 0x72 length (s.ROM_DATA.take length) s
        (0x00, s)

/-- The handler `echo`. -/
def echo (K : Consts) (inb : Buf) (len : Nat) (s : HW) : Nat × HW :=
  let s := simpleserial_put 0x72 len (payloadOf inb len) s
  (K.SS_ERR_OK, s)

/-! ## Reading the event log -/

/-- The IAP operations in a log, each as `(IAPCN, IAPAH, IAPAL)` at its trigger. -/
def iapReads : List Event → List (Nat × Nat × Nat)
  | [] => []
  | .iapgo cn ah al :: l => (cn, ah, al) :: iapReads l
  | _ :: l => iapReads l

/-- The array stores in a log, each as `(array, index)`. -/
def stores : List Event → List (BufId × Nat)
  | [] => []
  | .store b idx _ :: l => (b, idx) :: stores l
  | _ :: l => stores l

/-- The responses in a log, each as `(tag, size, data)`. -/
def responses : List Event → List (Nat × Nat × List Nat)
  | [] => []
  | .put c size data :: l => (c, size, data) :: responses l
  | _ :: l => responses l

/-- How many times a log asserts the trigger. -/
def assertions : List Event → Nat
  | [] => 0
  | .trigger_high :: l => assertions l + 1
  | _ :: l => assertions l

/-- No serial output (`simpleserial_put` or `putch`) happens in the log while
the trigger is asserted; `t` is the trigger at the start of the log. -/
def quiet (t : Bool) : List Event → Bool
  | [] => true
  | .trigger_high :: l => quiet true l
  | .trigger_low :: l => quiet false l
  | .put _ _ _ :: l => !t && quiet t l
  | .putch _ :: l => !t && quiet t l
  | _ :: l => quiet t l

/-- The number of byte comparisons a log holds before the trigger is
deasserted for the first time. -/
def comparisons : List Event → Nat
  | [] => 0
  | .trigger_low :: _ => 0
  | .cmp _ :: l => comparisons l + 1
  | _ :: l => comparisons l

/-- Trigger discipline of a handler run from `s` to `t`: the trigger is
deasserted at the end, it was asserted at most once, and nothing was sent
while it was asserted. -/
def Disciplined (s t : HW) : Prop :=
  t.P04 = 0 ∧ ∃ evs, t.log = s.log ++ evs ∧ assertions evs ≤ 1 ∧ quiet false evs = true

/-- The events of `m` successive IAP reads into `buf` with command `cn` and
high address byte `ah`, the `j`-th at low address byte `(al + j) % 256` and
buffer index `j`: what `BYTE_READ_FUNC` is shown to log. -/
def readEvents (dev : IAPDev) (cn ah al : Nat) (buf : Ptr) : Nat → List Event
  | 0 => []
  | m + 1 =>
    readEvents dev cn ah al buf m ++
      [.iapgo cn ah ((al + m) % 256),
       .store buf.base (buf.off + m) (dev cn ah ((al + m) % 256) % 256)]

/-- The array `l` after `f 0, f 1, ..., f (m - 1)` have been stored at the
indices `off, off + 1, ..., off + m - 1`. -/
def writeVals (l : List Nat) (off : Nat) (f : Nat → Nat) : Nat → List Nat
  | 0 => l
  | m + 1 => (writeVals l off f m).set (off + m) (f m)

/-- One pass through the body of the loop of `BYTE_READ_FUNC`. -/
def BYTE_READ_body (dev : IAPDev) (buf : Ptr) (i : Nat) (s : HW) : HW :=
  let s := set_IAPGO dev s
  let s := store buf i s.IAPFD s
  { s with IAPAL := (s.IAPAL + 1) % 256 }

/-- The state after `n` passes through the loop body, the first at index `i`. -/
def readN (dev : IAPDev) (buf : Ptr) : Nat → Nat → HW → HW
  | 0, _, s => s
  | n + 1, i, s => readN dev buf n (i + 1) (BYTE_READ_body dev buf i s)

/-- A machine state right after reset and `trigger_setup`: trigger low,
static arrays zeroed, nothing logged. -/
def reset : HW :=
  ⟨0, 0, 0, 0, 0, 0, 0, 0, List.replicate 128 0, List.replicate 12 0, []⟩

/-- Header constants as the upstream headers give them, for concrete runs. -/
def refConsts : Consts := ⟨0x00, 0x04, 0x04⟩

/-- A sample IAP device for concrete runs: every byte is the sum of its
address bytes plus 1, modulo 256. -/
def sampleDev : IAPDev := fun _ ah al => (ah + al + 1) % 256

/-! ## Loops -/

theorem glitch_loop_inner_spec (j cnt : Nat) (hj : j ≤ 50) (hc : cnt + (50 - j) < 4294967296) :
    glitch_loop_inner j cnt = (50, cnt + (50 - j)) := by
  induction j, cnt using glitch_loop_inner.induct with
  | case1 j cnt h ih =>
    rw [glitch_loop_inner, if_pos h]
    have h1 : (j + 1) % 65536 = j + 1 := by omega
    have h2 : (cnt + 1) % 4294967296 = cnt + 1 := by omega
    rw [h1, h2] at ih ⊢
    rw [ih (by omega) (by omega)]
    congr 1
    omega
  | case2 j cnt h =>
    rw [glitch_loop_inner, if_neg h]
    have : j = 50 := by omega
    subst this
    rfl

theorem glitch_loop_outer_spec (i j cnt : Nat) (hi : i < 50) (hc : cnt + 50 * (50 - i) < 4294967296) :
    glitch_loop_outer i j cnt = (50, 50, cnt + 50 * (50 - i)) := by
  induction i, j, cnt using glitch_loop_outer.induct with
  | case1 i j cnt h r ih =>
    rw [glitch_loop_outer, if_pos h]
    have hr : glitch_loop_inner 0 cnt = (50, cnt + 50) := by
      rw [glitch_loop_inner_spec 0 cnt (by omega) (by omega)]
    have h1 : (i + 1) % 65536 = i + 1 := by omega
    simp only [r, hr, h1] at ih ⊢
    by_cases h49 : i + 1 < 50
    · rw [ih h49 (by omega)]
      congr 2
      omega
    · have : i = 49 := by omega
      subst this
      rw [glitch_loop_outer, if_neg (by omega)]
  | case2 i j cnt h => omega

/-- The run of `glitch_loop`, in full. -/
theorem glitch_loop_eq (ver : SSVer) (bo : ByteOrder) (inb : Buf) (len : Nat) (s : HW) :
    glitch_loop ver bo inb len s =
      (0x00, { s with P04 := 0,
                      log := s.log ++ [.trigger_high, .trigger_low, .put 0x72 4 (u32Bytes bo 2500)] }) := by
  have h := glitch_loop_outer_spec 0 0 0 (by omega) (by omega)
  cases ver <;>
    simp [glitch_loop, h, trigger_high, trigger_low, simpleserial_put, emit]

theorem payloadOf_length (inb : Buf) (len : Nat) : (payloadOf inb len).length = len := by
  simp [payloadOf]

theorem payloadOf_bufOf (l : List Nat) : payloadOf (bufOf l) l.length = l := by
  apply List.ext_getElem
  · simp [payloadOf]
  · intro i h1 h2
    simp [payloadOf, bufOf, List.getElem?_eq_getElem h2]

theorem password_loop_step (pw : Buf) (cnt passok : Nat) (s : HW) (h : cnt < 5) :
    password_loop pw cnt passok s =
      password_loop pw (cnt + 1) (if pw cnt ≠ passwd cnt then 0 else passok) (emit (.cmp cnt) s) := by
  rw [password_loop, if_pos h]

theorem password_loop_done (pw : Buf) (cnt passok : Nat) (s : HW) (h : ¬ cnt < 5) :
    password_loop pw cnt passok s = (cnt, passok, s) := by
  rw [password_loop, if_neg h]

theorem password_loop_unfold (pw : Buf) (passok : Nat) (s : HW) :
    password_loop pw 0 passok s =
      (5, if pw 0 = 0x74 ∧ pw 1 = 0x6F ∧ pw 2 = 0x75 ∧ pw 3 = 0x63 ∧ pw 4 = 0x68 then passok else 0,
        { s with log := s.log ++ [.cmp 0, .cmp 1, .cmp 2, .cmp 3, .cmp 4] }) := by
  rw [password_loop_step _ _ _ _ (by decide), password_loop_step _ _ _ _ (by decide),
    password_loop_step _ _ _ _ (by decide), password_loop_step _ _ _ _ (by decide),
    password_loop_step _ _ _ _ (by decide), password_loop_done _ _ _ _ (by decide)]
  simp only [passwd, emit]
  simp
  split_ifs <;> simp_all

/-- The run of `password`, in full. -/
theorem password_eq (pw : Buf) (len : Nat) (s : HW) :
    password pw len s =
      (0x00, { s with P04 := 0,
                      log := s.log ++ [.trigger_high, .cmp 0, .cmp 1, .cmp 2, .cmp 3, .cmp 4,
                        .trigger_low,
                        .put 0x72 1 [if pw 0 = 0x74 ∧ pw 1 = 0x6F ∧ pw 2 = 0x75 ∧ pw 3 = 0x63 ∧
                          pw 4 = 0x68 then 1 else 0]] }) := by
  simp only [password, password_loop_unfold, trigger_high, trigger_low, simpleserial_put, emit]
  simp

theorem payloadOf_take_five (pw : Buf) (len : Nat) (hlen : 5 ≤ len) :
    (payloadOf pw len).take 5 = [pw 0, pw 1, pw 2, pw 3, pw 4] := by
  obtain ⟨k, rfl⟩ : ∃ k, len = 5 + k := ⟨len - 5, by omega⟩
  simp [payloadOf, List.range_add, List.take_append_eq_append_take, List.range_succ]

/-! ## The IAP read loop -/

theorem BYTE_READ_loop_eq (dev : IAPDev) (len : Nat) (buf : Ptr) (n : Nat) :
    ∀ (i : Nat) (s : HW), i + n = len % 256 - 1 →
      BYTE_READ_loop dev len buf i s = (i + n, readN dev buf n i s) := by
  induction n with
  | zero =>
    intro i s h
    rw [BYTE_READ_loop, if_neg (by omega)]
    rfl
  | succ n ih =>
    intro i s h
    rw [BYTE_READ_loop, if_pos (by omega)]
    have h1 : (i + 1) % 256 = i + 1 := by omega
    simp only [h1]
    rw [ih (i + 1) _ (by omega)]
    simp only [readN, BYTE_READ_body]
    congr 1
    omega

theorem readN_succ_last (dev : IAPDev) (buf : Ptr) (n : Nat) :
    ∀ (i : Nat) (s : HW),
      readN dev buf (n + 1) i s = BYTE_READ_body dev buf (i + n) (readN dev buf n i s) := by
  induction n with
  | zero => intro i s; rfl
  | succ n ih =>
    intro i s
    have hidx : i + 1 + n = i + (n + 1) := by omega
    rw [readN, ih (i + 1), readN, hidx]

/-- What `n` passes through the loop body from index 0 leave in each field. -/
theorem readN_fields (dev : IAPDev) (buf : Ptr) (s : HW) (hal : s.IAPAL < 256) (n : Nat) :
    (readN dev buf n 0 s).P04 = s.P04 ∧
    (readN dev buf n 0 s).IAPEN = s.IAPEN ∧
    (readN dev buf n 0 s).IAPCN = s.IAPCN ∧
    (readN dev buf n 0 s).IAPAH = s.IAPAH ∧
    (readN dev buf n 0 s).IAPAL = (s.IAPAL + n) % 256 ∧
    (readN dev buf n 0 s).RCTRIM0 = s.RCTRIM0 ∧
    (readN dev buf n 0 s).RCTRIM1 = s.RCTRIM1 ∧
    (readN dev buf n 0 s).log = s.log ++ readEvents dev s.IAPCN s.IAPAH s.IAPAL buf n ∧
    (readN dev buf n 0 s).ROM_DATA =
      (if buf.base = .ROM_DATA then
        writeVals s.ROM_DATA buf.off (fun j => dev s.IAPCN s.IAPAH ((s.IAPAL + j) % 256) % 256) n
       else s.ROM_DATA) ∧
    (readN dev buf n 0 s).hircmap =
      (if buf.base = .hircmap then
        writeVals s.hircmap buf.off (fun j => dev s.IAPCN s.IAPAH ((s.IAPAL + j) % 256) % 256) n
       else s.hircmap) := by
  induction n with
  | zero =>
    simp [readN, readEvents, writeVals, Nat.mod_eq_of_lt hal]
  | succ n ih =>
    obtain ⟨h1, h2, h3, h4, h5, h6, h7, h8, h9, h10⟩ := ih
    rw [readN_succ_last]
    obtain ⟨base, off⟩ := buf
    have hmod : ((s.IAPAL + n) % 256 + 1) % 256 = (s.IAPAL + (n + 1)) % 256 := by omega
    cases base <;>
      simp_all [BYTE_READ_body, set_IAPGO, store, emit, readEvents, writeVals]

theorem and_255_lt (x : Nat) : x &&& 0xFF < 256 :=
  Nat.lt_succ_of_le Nat.and_le_right

/-- What `BYTE_READ_FUNC` leaves in each field: `max len 1` reads, logged and
stored in order, the registers `IAPCN` and `IAPAH` as set at entry. -/
theorem BYTE_READ_FUNC_fields (dev : IAPDev) (cmd start len : Nat) (buf : Ptr) (s : HW) :
    (BYTE_READ_FUNC dev cmd start len buf s).P04 = s.P04 ∧
    (BYTE_READ_FUNC dev cmd start len buf s).RCTRIM0 = s.RCTRIM0 ∧
    (BYTE_READ_FUNC dev cmd start len buf s).RCTRIM1 = s.RCTRIM1 ∧
    (BYTE_READ_FUNC dev cmd start len buf s).log =
      s.log ++ readEvents dev cmd ((start >>> 8) &&& 0xFF) (start &&& 0xFF) buf
        (max (len % 256) 1) ∧
    (BYTE_READ_FUNC dev cmd start len buf s).ROM_DATA =
      (if buf.base = .ROM_DATA then
        writeVals s.ROM_DATA buf.off
          (fun j => dev cmd ((start >>> 8) &&& 0xFF) (((start &&& 0xFF) + j) % 256) % 256)
          (max (len % 256) 1)
       else s.ROM_DATA) ∧
    (BYTE_READ_FUNC dev cmd start len buf s).hircmap =
      (if buf.base = .hircmap then
        writeVals s.hircmap buf.off
          (fun j => dev cmd ((start >>> 8) &&& 0xFF) (((start &&& 0xFF) + j) % 256) % 256)
          (max (len % 256) 1)
       else s.hircmap) := by
  have hm : max (len % 256) 1 = (len % 256 - 1) + 1 := by omega
  rw [hm]
  have hloop := BYTE_READ_loop_eq dev len buf (len % 256 - 1) 0
    { s with IAPEN := 1, IAPCN := cmd, IAPAH := (start >>> 8) &&& 0xFF, IAPAL := start &&& 0xFF }
    (by omega)
  obtain ⟨h1, h2, h3, h4, h5, h6, h7, h8, h9, h10⟩ := readN_fields dev buf
    { s with IAPEN := 1, IAPCN := cmd, IAPAH := (start >>> 8) &&& 0xFF, IAPAL := start &&& 0xFF }
    (and_255_lt start) (len % 256 - 1)
  obtain ⟨base, off⟩ := buf
  simp only [BYTE_READ_FUNC, set_IAPEN, hloop]
  cases base <;>
    simp_all [set_IAPGO, store, emit, clr_IAPEN, readEvents, writeVals]

/-! ## Facts about logs of IAP reads -/

theorem writeVals_length (l : List Nat) (off : Nat) (f : Nat → Nat) (m : Nat) :
    (writeVals l off f m).length = l.length := by
  induction m with
  | zero => rfl
  | succ m ih => simp [writeVals, ih]

theorem writeVals_take (l : List Nat) (f : Nat → Nat) (m : Nat) (h : m ≤ l.length) :
    (writeVals l 0 f m).take m = (List.range m).map f := by
  induction m with
  | zero => simp
  | succ m ih =>
    have hlen : m < (writeVals l 0 f m).length := by rw [writeVals_length]; omega
    have htake : ((writeVals l 0 f m).set m (f m)).take m = (writeVals l 0 f m).take m := by
      apply List.ext_getElem?
      intro i
      rw [List.getElem?_take, List.getElem?_take]
      split
      · rw [List.getElem?_set_ne (by omega)]
      · rfl
    rw [writeVals, Nat.zero_add, List.take_succ, htake, ih (by omega),
      List.getElem?_set_self hlen, List.range_succ, List.map_append]
    rfl

theorem iapReads_append (a b : List Event) : iapReads (a ++ b) = iapReads a ++ iapReads b := by
  induction a with
  | nil => rfl
  | cons e a ih => cases e <;> simp [iapReads, ih]

theorem stores_append (a b : List Event) : stores (a ++ b) = stores a ++ stores b := by
  induction a with
  | nil => rfl
  | cons e a ih => cases e <;> simp [stores, ih]

theorem responses_append (a b : List Event) :
    responses (a ++ b) = responses a ++ responses b := by
  induction a with
  | nil => rfl
  | cons e a ih => cases e <;> simp [responses, ih]

theorem iapReads_readEvents (dev : IAPDev) (cn ah al : Nat) (buf : Ptr) (m : Nat) :
    iapReads (readEvents dev cn ah al buf m) =
      (List.range m).map (fun j => (cn, ah, (al + j) % 256)) := by
  induction m with
  | zero => rfl
  | succ m ih => simp [readEvents, iapReads_append, ih, List.range_succ, iapReads]

theorem stores_readEvents (dev : IAPDev) (cn ah al : Nat) (buf : Ptr) (m : Nat) :
    stores (readEvents dev cn ah al buf m) =
      (List.range m).map (fun j => (buf.base, buf.off + j)) := by
  induction m with
  | zero => rfl
  | succ m ih => simp [readEvents, stores_append, ih, List.range_succ, stores]

theorem responses_readEvents (dev : IAPDev) (cn ah al : Nat) (buf : Ptr) (m : Nat) :
    responses (readEvents dev cn ah al buf m) = [] := by
  induction m with
  | zero => rfl
  | succ m ih => simp [readEvents, responses_append, ih, responses]

theorem assertions_readEvents_append (dev : IAPDev) (cn ah al : Nat) (buf : Ptr) (m : Nat) :
    ∀ l, assertions (readEvents dev cn ah al buf m ++ l) = assertions l := by
  induction m with
  | zero => intro l; rfl
  | succ m ih =>
    intro l
    rw [readEvents, List.append_assoc, ih]
    rfl

theorem quiet_readEvents_append (t : Bool) (dev : IAPDev) (cn ah al : Nat) (buf : Ptr) (m : Nat) :
    ∀ l, quiet t (readEvents dev cn ah al buf m ++ l) = quiet t l := by
  induction m with
  | zero => intro l; rfl
  | succ m ih =>
    intro l
    rw [readEvents, List.append_assoc, ih]
    rfl

/-- A request that `get_data` accepts, in full: the status is 0 and the log
grows by `max n 1` IAP reads, all with high address byte `in[2]`, the `j`-th
at low address byte `(in[1] + j) % 256`, then one response of `n` bytes. -/
theorem get_data_accepted (K : Consts) (dev : IAPDev) (inb : Buf) (len : Nat) (s : HW)
    (hlen : 4 ≤ len) (hop : inb 0 &&& 0x20 = 0) (hn : inb 3 ≤ 128)
    (h1 : inb 1 < 256) (h2 : inb 2 < 256) :
    (get_data K dev inb len s).1 = 0x00 ∧
    (get_data K dev inb len s).2.P04 = s.P04 ∧
    (get_data K dev inb len s).2.log =
      s.log ++ readEvents dev (inb 0) (inb 2) (inb 1) ⟨.ROM_DATA, 0⟩ (max (inb 3) 1) ++
        [.put 0x72 (inb 3) ((get_data K dev inb len s).2.ROM_DATA.take (inb 3))] ∧
    (get_data K dev inb len s).2.ROM_DATA =
      writeVals s.ROM_DATA 0 (fun j => dev (inb 0) (inb 2) ((inb 1 + j) % 256) % 256)
        (max (inb 3) 1) := by
  have hstart : (inb 1 ||| (inb 2 <<< 8)) % 65536 = 256 * inb 2 + inb 1 := by
    have := Nat.mul_add_lt_is_or (show inb 1 < 2 ^ 8 from h1) (inb 2)
    rw [Nat.or_comm, Nat.shiftLeft_eq, Nat.mul_comm, ← this]
    norm_num
    omega
  have hah : ((256 * inb 2 + inb 1) >>> 8) &&& 0xFF = inb 2 := by
    rw [Nat.shiftRight_eq_div_pow, show (0xFF : Nat) = 2 ^ 8 - 1 from rfl,
      Nat.and_pow_two_sub_one_eq_mod]
    norm_num
    omega
  have hal : (256 * inb 2 + inb 1) &&& 0xFF = inb 1 := by
    rw [show (0xFF : Nat) = 2 ^ 8 - 1 from rfl, Nat.and_pow_two_sub_one_eq_mod]
    norm_num
    omega
  have hm : inb 3 % 256 = inb 3 := by omega
  obtain ⟨f1, -, -, f4, f5, -⟩ := BYTE_READ_FUNC_fields dev (inb 0) (256 * inb 2 + inb 1) (inb 3)
    ⟨.ROM_DATA, 0⟩ s
  rw [hah, hal, hm] at f4 f5
  have hg : get_data K dev inb len s =
      (0x00, simpleserial_put 0x72 (inb 3)
        ((BYTE_READ_FUNC dev (inb 0) (256 * inb 2 + inb 1) (inb 3) ⟨.ROM_DATA, 0⟩ s).ROM_DATA.take
          (inb 3))
        (BYTE_READ_FUNC dev (inb 0) (256 * inb 2 + inb 1) (inb 3) ⟨.ROM_DATA, 0⟩ s)) := by
    simp [get_data, Nat.not_lt.mpr hlen, hop, Nat.not_lt.mpr hn, hstart]
  rw [hg]
  simp [simpleserial_put, emit, f1, f4, f5]

/-- An accepted request with a length field of at least 1, read off the log:
`n` IAP reads with `IAPCN = in[0]`, the `i`-th at `IAPAH = in[2]` and
`IAPAL = (in[1] + i) % 256`, then one response of `n` bytes with the values
read, in order; the status is 0. -/
theorem get_data_accepted_run (K : Consts) (dev : IAPDev) (inb : Buf) (len : Nat) (s : HW)
    (hlen : 4 ≤ len) (hop : inb 0 &&& 0x20 = 0) (hn1 : 1 ≤ inb 3) (hn : inb 3 ≤ 128)
    (h1 : inb 1 < 256) (h2 : inb 2 < 256) (hrom : s.ROM_DATA.length = 128) :
    (get_data K dev inb len s).1 = 0x00 ∧
    ∃ evs, (get_data K dev inb len s).2.log = s.log ++ evs ∧
      iapReads evs = (List.range (inb 3)).map (fun i => (inb 0, inb 2, (inb 1 + i) % 256)) ∧
      responses evs = [(0x72, inb 3,
        (List.range (inb 3)).map (fun i => dev (inb 0) (inb 2) ((inb 1 + i) % 256) % 256))] := by
  obtain ⟨g1, -, g3, g4⟩ := get_data_accepted K dev inb len s hlen hop hn h1 h2
  have hm : max (inb 3) 1 = inb 3 := by omega
  rw [hm] at g3 g4
  rw [g4, writeVals_take _ _ _ (by omega), List.append_assoc] at g3
  refine ⟨g1, _, g3, ?_, ?_⟩
  · simp [iapReads_append, iapReads_readEvents, iapReads]
  · simp [responses_append, responses_readEvents, responses]

/-- An accepted request that stays within one 256-byte page
(`in[1] + n ≤ 256`): there the `i`-th read is at the 16-bit address
`(start + i) mod 65536` with `start = in[1] + 256 * in[2]`. -/
theorem get_data_within_page (K : Consts) (dev : IAPDev) (inb : Buf) (len : Nat) (s : HW)
    (hlen : 4 ≤ len) (hop : inb 0 &&& 0x20 = 0) (hn1 : 1 ≤ inb 3) (hn : inb 3 ≤ 128)
    (h1 : inb 1 < 256) (h2 : inb 2 < 256) (hrom : s.ROM_DATA.length = 128)
    (hpage : inb 1 + inb 3 ≤ 256) :
    ∃ evs, (get_data K dev inb len s).2.log = s.log ++ evs ∧
      iapReads evs = (List.range (inb 3)).map (fun i =>
        (inb 0, (inb 1 + 256 * inb 2 + i) % 65536 / 256, (inb 1 + 256 * inb 2 + i) % 65536 % 256)) := by
  obtain ⟨-, evs, g1, g2, -⟩ := get_data_accepted_run K dev inb len s hlen hop hn1 hn h1 h2 hrom
  refine ⟨evs, g1, ?_⟩
  rw [g2]
  apply List.map_congr_left
  intro i hi
  have hi' : i < inb 3 := List.mem_range.mp hi
  have e1 : (inb 1 + 256 * inb 2 + i) % 65536 / 256 = inb 2 := by omega
  have e2 : (inb 1 + 256 * inb 2 + i) % 65536 % 256 = (inb 1 + i) % 256 := by omega
  rw [e1, e2]

/-- The log of any run of `get_data`: either nothing is added, or at most 128
IAP reads into `ROM_DATA` from index 0 followed by one response. -/
theorem get_data_log (K : Consts) (dev : IAPDev) (inb : Buf) (len : Nat) (s : HW) :
    (get_data K dev inb len s).2.P04 = s.P04 ∧
    ((get_data K dev inb len s).2.log = s.log ∨
      ∃ cn ah al m data, m ≤ 128 ∧
        (get_data K dev inb len s).2.log =
          s.log ++ (readEvents dev cn ah al ⟨.ROM_DATA, 0⟩ m ++ [.put 0x72 (inb 3) data])) := by
  by_cases hlen : len < 4
  · simp [get_data, hlen]
  by_cases hop : inb 0 &&& 0x20 ≠ 0
  · simp [get_data, hlen, hop]
  by_cases hn : 128 < inb 3
  · simp [get_data, hlen, hop, hn]
  obtain ⟨f1, -, -, f4, -, -⟩ := BYTE_READ_FUNC_fields dev (inb 0)
    ((inb 1 ||| (inb 2 <<< 8)) % 65536) (inb 3) ⟨.ROM_DATA, 0⟩ s
  have hg : get_data K dev inb len s =
      (0x00, simpleserial_put 0x72 (inb 3)
        ((BYTE_READ_FUNC dev (inb 0) ((inb 1 ||| (inb 2 <<< 8)) % 65536) (inb 3)
          ⟨.ROM_DATA, 0⟩ s).ROM_DATA.take (inb 3))
        (BYTE_READ_FUNC dev (inb 0) ((inb 1 ||| (inb 2 <<< 8)) % 65536) (inb 3)
          ⟨.ROM_DATA, 0⟩ s)) := by
    simp [get_data, hlen, hop, hn]
  rw [hg]
  refine ⟨by simp [simpleserial_put, emit, f1],
    Or.inr ⟨inb 0, (((inb 1 ||| (inb 2 <<< 8)) % 65536) >>> 8) &&& 0xFF,
      ((inb 1 ||| (inb 2 <<< 8)) % 65536) &&& 0xFF, max (inb 3 % 256) 1,
      (BYTE_READ_FUNC dev (inb 0) ((inb 1 ||| (inb 2 <<< 8)) % 65536) (inb 3)
          ⟨.ROM_DATA, 0⟩ s).ROM_DATA.take (inb 3), by omega, ?_⟩⟩
  simp only [simpleserial_put, emit, f4, List.append_assoc]

/-- The log of any run of `get_rc_trim_values`: two stores, ten IAP reads into
`hircmap` from index 2, one response of size 12. -/
theorem get_rc_trim_values_log (K : Consts) (dev : IAPDev) (inb : Buf) (len : Nat) (s : HW) :
    (get_rc_trim_values K dev inb len s).2.P04 = s.P04 ∧
    ∃ data, (get_rc_trim_values K dev inb len s).2.log =
      s.log ++ ([.store .hircmap 0 s.RCTRIM0, .store .hircmap 1 s.RCTRIM1] ++
        (readEvents dev K.READ_UID 0 0x30 ⟨.hircmap, 2⟩ 10 ++ [.put 0x72 12 data])) := by
  obtain ⟨f1, -, -, f4, -, -⟩ := BYTE_READ_FUNC_fields dev K.READ_UID 0x30 10 ⟨.hircmap, 2⟩
    (store ⟨.hircmap, 0⟩ 1 (store ⟨.hircmap, 0⟩ 0 s.RCTRIM0 s).RCTRIM1
      (store ⟨.hircmap, 0⟩ 0 s.RCTRIM0 s))
  have hah : ((0x30 : Nat) >>> 8) &&& 0xFF = 0 := by decide
  have hal : (0x30 : Nat) &&& 0xFF = 0x30 := by decide
  have hm : max (10 % 256) 1 = 10 := by decide
  rw [hah, hal, hm] at f4
  refine ⟨?_, (get_rc_trim_values K dev inb len s).2.hircmap.take 12, ?_⟩
  · simp only [get_rc_trim_values, simpleserial_put, emit, f1]
    simp [store, emit]
  · simp only [get_rc_trim_values, simpleserial_put, emit, f4]
    simp [store, emit]

theorem spin_zero (fuel : Nat) : spin fuel 0 = none := by
  induction fuel with
  | zero => rfl
  | succ n ih => simp [spin, ih]

/-- The run of `infinite_loop` up to its loop, which it never leaves. -/
theorem infinite_loop_eq (fuel : Nat) (inb : Buf) (len : Nat) (s : HW) :
    infinite_loop fuel inb len s =
      (none, { s with P04 := 0,
                      log := s.log ++ [.led_ok 1, .led_error 0, .trigger_high, .trigger_low] }) := by
  simp [infinite_loop, spin_zero, led_ok, led_error, trigger_high, trigger_low, emit]

/-! ## The handlers with a trigger window -/

/-- C1: for every payload of at least 5 bytes `password` emits the single
response `'r'` of size 1 whose byte is 1 when payload bytes 0..4 are
`t,o,u,c,h` and 0 otherwise, and returns status 0. -/
theorem password_response (pw : Buf) (len : Nat) (s : HW) (hlen : 5 ≤ len) :
    password pw len s =
      (0x00, { s with P04 := 0,
                      log := s.log ++ [.trigger_high, .cmp 0, .cmp 1, .cmp 2, .cmp 3, .cmp 4,
                        .trigger_low,
                        .put 0x72 1 [if (payloadOf pw len).take 5 = [0x74, 0x6F, 0x75, 0x63, 0x68]
                          then 0x01 else 0x00]] }) := by
  rw [payloadOf_take_five pw len hlen, password_eq]
  simp

/-- Witness for C1: payload "touch" is answered with 0x01, payload "xouch" with 0x00. -/
theorem password_response_witness :
    password (bufOf [0x74, 0x6F, 0x75, 0x63, 0x68]) 5 reset =
      (0x00, { reset with P04 := 0,
                          log := [.trigger_high, .cmp 0, .cmp 1, .cmp 2, .cmp 3, .cmp 4,
                            .trigger_low, .put 0x72 1 [0x01]] }) ∧
    password (bufOf [0x78, 0x6F, 0x75, 0x63, 0x68]) 5 reset =
      (0x00, { reset with P04 := 0,
                          log := [.trigger_high, .cmp 0, .cmp 1, .cmp 2, .cmp 3, .cmp 4,
                            .trigger_low, .put 0x72 1 [0x00]] }) :=
  ⟨by simpa [payloadOf, bufOf, reset] using
      password_response (bufOf [0x74, 0x6F, 0x75, 0x63, 0x68]) 5 reset (by decide),
   by simpa [payloadOf, bufOf, reset] using
      password_response (bufOf [0x78, 0x6F, 0x75, 0x63, 0x68]) 5 reset (by decide)⟩

/-- C2, as stated, fails: the payload "xouch" differs from the secret at index
0, yet `password` performs 5 byte comparisons before it deasserts the trigger,
not 0 + 1. -/
theorem password_short_circuit_cex :
    bufOf [0x78, 0x6F, 0x75, 0x63, 0x68] 0 ≠ passwd 0 ∧
    comparisons (password (bufOf [0x78, 0x6F, 0x75, 0x63, 0x68]) 5 reset).2.log = 5 ∧
    comparisons (password (bufOf [0x78, 0x6F, 0x75, 0x63, 0x68]) 5 reset).2.log ≠ 0 + 1 := by
  rw [password_eq]
  refine ⟨by decide, ?_, ?_⟩ <;> simp [reset, comparisons]

/-- C2, amended: `password` compares all five bytes of the payload with the
secret and never leaves the loop early: for every payload, whatever the index
of its first mismatch, the handler logs the comparisons of indices 0, 1, 2, 3,
4 between asserting and deasserting the trigger, five in all. -/
theorem password_compares_all (pw : Buf) (len : Nat) (s : HW) :
    ∃ b evs,
      evs = [Event.trigger_high, .cmp 0, .cmp 1, .cmp 2, .cmp 3, .cmp 4, .trigger_low,
        .put 0x72 1 [b]] ∧
      (password pw len s).2.log = s.log ++ evs ∧ comparisons evs = 5 := by
  refine ⟨if pw 0 = 0x74 ∧ pw 1 = 0x6F ∧ pw 2 = 0x75 ∧ pw 3 = 0x63 ∧ pw 4 = 0x68 then 1 else 0,
    _, rfl, ?_, by simp [comparisons]⟩
  rw [password_eq]

/-- C3: under non-faulted execution `glitch_loop` is total, its loops leave
`i = j = 50` and `cnt = 2500`, it asserts and deasserts the trigger, emits the
single response `'r'` of size 4 that carries 2500 (in either byte order) and
returns status 0 in both protocol variants. -/
theorem glitch_loop_counts_2500 (ver : SSVer) (bo : ByteOrder) (inb : Buf) (len : Nat) (s : HW) :
    glitch_loop_outer 0 0 0 = (50, 50, 2500) ∧
    glitch_loop ver bo inb len s =
      (0x00, { s with P04 := 0,
                      log := s.log ++ [.trigger_high, .trigger_low, .put 0x72 4 (u32Bytes bo 2500)] }) ∧
    u32OfBytes bo (u32Bytes bo 2500) = 2500 := by
  refine ⟨glitch_loop_outer_spec 0 0 0 (by omega) (by omega), glitch_loop_eq ver bo inb len s, ?_⟩
  cases bo <;> decide

/-- C9: for every input byte `glitch_comparison` emits the single response
`'r'` of size 1 whose byte is 1 when the byte is 0xA2 and 0 otherwise (never
the initial 5), and returns status 0. -/
theorem glitch_comparison_response (inb : Buf) (len : Nat) (s : HW) :
    glitch_comparison inb len s =
      (0x00, { s with P04 := 0,
                      log := s.log ++ [.trigger_high, .trigger_low,
                        .put 0x72 1 [if inb 0 = 0xA2 then 1 else 0]] }) ∧
    (if inb 0 = 0xA2 then 1 else 0) ≠ 5 := by
  constructor
  · simp [glitch_comparison, trigger_high, trigger_low, simpleserial_put, emit]
  · split_ifs <;> decide

/-! ## echo and the memory read -/

/-- C6: for every payload of length 0 to 255 found at the input pointer
`echo` emits the single response `'r'` whose size is the payload length and
whose data is the payload, returns `SS_ERR_OK`, and leaves the trigger pin and
every other part of the state but the log as it was. -/
theorem echo_roundtrip (K : Consts) (inb : Buf) (payload : List Nat) (s : HW)
    (_hlen : payload.length ≤ 255) (hin : payloadOf inb payload.length = payload) :
    echo K inb payload.length s =
      (K.SS_ERR_OK, { s with log := s.log ++ [.put 0x72 payload.length payload] }) := by
  simp [echo, simpleserial_put, emit, hin]

/-- Witness for C6: the payload 0x41, 0x42, 0x43 comes back as a response of
size 3 with the same bytes, and the status is `SS_ERR_OK`. -/
theorem echo_roundtrip_witness :
    echo refConsts (bufOf [0x41, 0x42, 0x43]) 3 reset =
      (refConsts.SS_ERR_OK, { reset with log := reset.log ++ [.put 0x72 3 [0x41, 0x42, 0x43]] }) :=
  echo_roundtrip refConsts (bufOf [0x41, 0x42, 0x43]) [0x41, 0x42, 0x43] reset (by decide)
    (payloadOf_bufOf [0x41, 0x42, 0x43])

/-- C4: a request of at least 4 bytes whose length field `in[3]` exceeds 128
or whose opcode `in[0]` has bit 0x20 set is rejected with a non-zero status,
0x18 when the opcode bit is set and 0x17 otherwise, and the machine state is
left as it was: no IAP register written, `ROM_DATA` unchanged, nothing sent. -/
theorem get_data_rejects (K : Consts) (dev : IAPDev) (inb : Buf) (len : Nat) (s : HW)
    (hlen : 4 ≤ len) (h : 128 < inb 3 ∨ inb 0 &&& 0x20 ≠ 0) :
    get_data K dev inb len s = (if inb 0 &&& 0x20 ≠ 0 then 0x18 else 0x17, s) ∧
    (if inb 0 &&& 0x20 ≠ 0 then 0x18 else 0x17) ≠ 0 := by
  constructor
  · by_cases hb : inb 0 &&& 0x20 ≠ 0
    · simp [get_data, hb, Nat.not_lt.mpr hlen]
    · have h3 : 128 < inb 3 := by tauto
      simp [get_data, hb, Nat.not_lt.mpr hlen, h3]
  · split_ifs <;> decide

/-- Witness for C4: a descriptor with opcode 0x20 is rejected with 0x18. -/
theorem get_data_rejects_witness :
    get_data refConsts sampleDev (bufOf [0x20, 0x00, 0x00, 0x01]) 4 reset = (0x18, reset) :=
  (get_data_rejects refConsts sampleDev (bufOf [0x20, 0x00, 0x00, 0x01]) 4 reset
    (by decide) (Or.inr (by decide))).1

/-- C5, as stated, fails: a request of 5 bytes with opcode 0x00, address 0 and
length field 1 is not answered with `SS_ERR_LEN`; `get_data` performs one IAP
read, sends one response and returns 0. -/
theorem get_data_long_len_cex :
    (get_data refConsts sampleDev (bufOf [0x00, 0x00, 0x00, 0x01, 0x00]) 5 reset).1 = 0x00 ∧
    (get_data refConsts sampleDev (bufOf [0x00, 0x00, 0x00, 0x01, 0x00]) 5 reset).1 ≠
      refConsts.SS_ERR_LEN ∧
    (get_data refConsts sampleDev (bufOf [0x00, 0x00, 0x00, 0x01, 0x00]) 5 reset).2.log =
      [.iapgo 0 0 0, .store .ROM_DATA 0 1, .put 0x72 1 [1]] := by
  obtain ⟨h1, -, h3, h4⟩ := get_data_accepted refConsts sampleDev
    (bufOf [0x00, 0x00, 0x00, 0x01, 0x00]) 5 reset (by decide) (by decide) (by decide)
    (by decide) (by decide)
  rw [h1, h3, h4]
  refine ⟨rfl, by decide, ?_⟩
  simp [bufOf, reset, readEvents, writeVals, sampleDev]

/-- C5, amended: `get_data` rejects every request whose payload length is
less than 4 with `SS_ERR_LEN`, leaving the machine state as it was (no memory
read, nothing sent); a request of more than 4 bytes is not rejected for its
length and is handled as the request made of its first four bytes. -/
theorem get_data_short_len (K : Consts) (dev : IAPDev) (inb : Buf) (len : Nat) (s : HW) :
    (len < 4 → get_data K dev inb len s = (K.SS_ERR_LEN, s)) ∧
    (4 ≤ len → get_data K dev inb len s = get_data K dev inb 4 s) := by
  constructor
  · intro h
    simp [get_data, h]
  · intro h
    simp [get_data, Nat.not_lt.mpr h]

/-- Witness for C5 amended: lengths 3 and 5. -/
theorem get_data_short_len_witness :
    get_data refConsts sampleDev (bufOf [0x00, 0x00, 0x00]) 3 reset = (refConsts.SS_ERR_LEN, reset) ∧
    get_data refConsts sampleDev (bufOf [0x00, 0x00, 0x00, 0x01, 0x00]) 5 reset =
      get_data refConsts sampleDev (bufOf [0x00, 0x00, 0x00, 0x01, 0x00]) 4 reset :=
  ⟨(get_data_short_len refConsts sampleDev (bufOf [0x00, 0x00, 0x00]) 3 reset).1 (by decide),
   (get_data_short_len refConsts sampleDev (bufOf [0x00, 0x00, 0x00, 0x01, 0x00]) 5 reset).2
     (by decide)⟩

/-- C7, the code at a request that crosses a 256-byte boundary: for the
descriptor opcode 0x00, start 0x00FF, length 2 the two IAP reads are made at
`IAPAH:IAPAL` = 0x00:0xFF and 0x00:0x00, whereas the addresses `(start + i) mod
65536` are 0x00FF and 0x0100; the response carries the bytes of 0x00FF and
0x0000, here 0 and 1, where the byte at 0x0100 is 2. -/
theorem get_data_page_wrap :
    iapReads (get_data refConsts sampleDev (bufOf [0x00, 0xFF, 0x00, 0x02]) 4 reset).2.log =
      [(0x00, 0x00, 0xFF), (0x00, 0x00, 0x00)] ∧
    (List.range 2).map (fun i => ((0xFF + 256 * 0x00 + i) % 65536 / 256,
        (0xFF + 256 * 0x00 + i) % 65536 % 256)) = [(0x00, 0xFF), (0x01, 0x00)] ∧
    responses (get_data refConsts sampleDev (bufOf [0x00, 0xFF, 0x00, 0x02]) 4 reset).2.log =
      [(0x72, 2, [0, 1])] ∧
    sampleDev 0x00 0x01 0x00 = 2 := by
  obtain ⟨-, -, h3, h4⟩ := get_data_accepted refConsts sampleDev
    (bufOf [0x00, 0xFF, 0x00, 0x02]) 4 reset (by decide) (by decide) (by decide)
    (by decide) (by decide)
  rw [h3, h4]
  refine ⟨?_, by decide, ?_, by decide⟩ <;>
    simp [bufOf, reset, readEvents, writeVals, sampleDev, iapReads, responses]

/-! ## Buffer bounds and trigger discipline -/

/-- C10: `BYTE_READ_FUNC` called with an 8-bit `len` performs `max len 1` IAP
reads and stores at the buffer indices `0 .. max len 1 - 1`, in order (for
`len = 0` the loop ends at once and the trailing read stores at index 0);
every store of any run of `get_data` is into `ROM_DATA` at an index below 128;
the stores of `get_rc_trim_values` are at the indices 0 .. 11 of `hircmap`. -/
theorem byte_read_in_bounds (K : Consts) (dev : IAPDev) :
    (∀ cmd start len buf s, len < 256 →
      ∃ evs, (BYTE_READ_FUNC dev cmd start len buf s).log = s.log ++ evs ∧
        (iapReads evs).length = max len 1 ∧
        stores evs = (List.range (max len 1)).map (fun j => (buf.base, buf.off + j))) ∧
    (∀ buf s, BYTE_READ_loop dev 0 buf 0 s = (0, s)) ∧
    (∀ inb len s,
      ∃ evs, (get_data K dev inb len s).2.log = s.log ++ evs ∧
        ∀ p ∈ stores evs, p.1 = BufId.ROM_DATA ∧ p.2 < 128) ∧
    (∀ inb len s,
      ∃ evs, (get_rc_trim_values K dev inb len s).2.log = s.log ++ evs ∧
        stores evs = (List.range 12).map (fun j => (BufId.hircmap, j))) := by
  refine ⟨?_, ?_, ?_, ?_⟩
  · intro cmd start len buf s hlen
    obtain ⟨-, -, -, f4, -, -⟩ := BYTE_READ_FUNC_fields dev cmd start len buf s
    rw [Nat.mod_eq_of_lt hlen] at f4
    exact ⟨_, f4, by simp [iapReads_readEvents], stores_readEvents _ _ _ _ _ _⟩
  · intro buf s
    rw [BYTE_READ_loop, if_neg (by decide)]
  · intro inb len s
    obtain ⟨-, h | ⟨cn, ah, al, m, data, hm, h⟩⟩ := get_data_log K dev inb len s
    · exact ⟨[], by simp [h], by simp [stores]⟩
    · refine ⟨_, h, ?_⟩
      intro p hp
      simp only [stores_append, stores_readEvents, stores, List.append_nil, List.mem_map,
        List.mem_range] at hp
      obtain ⟨j, hj, rfl⟩ := hp
      exact ⟨rfl, by simp; omega⟩
  · intro inb len s
    obtain ⟨-, data, h⟩ := get_rc_trim_values_log K dev inb len s
    refine ⟨_, h, ?_⟩
    simp only [stores_append, stores_readEvents, stores]
    decide

/-- Witness for C10: `BYTE_READ_FUNC` with `len = 0` makes one read and stores at index 0. -/
theorem byte_read_in_bounds_witness :
    ∃ evs, (BYTE_READ_FUNC sampleDev 0 0 0 ⟨.ROM_DATA, 0⟩ reset).log = reset.log ++ evs ∧
      (iapReads evs).length = max 0 1 ∧
      stores evs = (List.range (max 0 1)).map (fun j => (BufId.ROM_DATA, 0 + j)) :=
  (byte_read_in_bounds refConsts sampleDev).1 0 0 0 ⟨.ROM_DATA, 0⟩ reset (by decide)

/-- C8: from a deasserted trigger, as `trigger_setup` leaves it, each of
`glitch_loop`, `glitch_comparison`, `password`, `get_data`,
`get_rc_trim_values` and `echo` returns with the trigger deasserted, asserts
it at most once and sends nothing while it is asserted; `infinite_loop` is
still in its loop after any number of tests of the loop condition, and at the
loop the same three facts hold. -/
theorem trigger_discipline (K : Consts) (ver : SSVer) (bo : ByteOrder) (dev : IAPDev)
    (inb : Buf) (len : Nat) (s : HW) (fuel : Nat) (h : s.P04 = 0) :
    (trigger_setup s).P04 = 0 ∧
    Disciplined s (glitch_loop ver bo inb len s).2 ∧
    Disciplined s (glitch_comparison inb len s).2 ∧
    Disciplined s (password inb len s).2 ∧
    Disciplined s (get_data K dev inb len s).2 ∧
    Disciplined s (get_rc_trim_values K dev inb len s).2 ∧
    Disciplined s (echo K inb len s).2 ∧
    (infinite_loop fuel inb len s).1 = none ∧
    Disciplined s (infinite_loop fuel inb len s).2 := by
  refine ⟨rfl, ?_, ?_, ?_, ?_, ?_, ?_, ?_, ?_⟩
  · rw [glitch_loop_eq]
    exact ⟨rfl, _, rfl, by simp [assertions], rfl⟩
  · exact ⟨rfl, [.trigger_high, .trigger_low, .put 0x72 1 [if inb 0 = 0xA2 then 1 else 0]],
      by simp [glitch_comparison, trigger_high, trigger_low, simpleserial_put, emit],
      by simp [assertions], rfl⟩
  · rw [password_eq]
    exact ⟨rfl, _, rfl, by simp [assertions], rfl⟩
  · obtain ⟨hp, hl | ⟨cn, ah, al, m, data, -, hl⟩⟩ := get_data_log K dev inb len s
    · exact ⟨hp.trans h, [], by simp [hl], by simp [assertions], rfl⟩
    · refine ⟨hp.trans h, _, hl, ?_, ?_⟩
      · rw [assertions_readEvents_append]; simp [assertions]
      · rw [quiet_readEvents_append]; rfl
  · obtain ⟨hp, data, hl⟩ := get_rc_trim_values_log K dev inb len s
    refine ⟨hp.trans h, _, hl, ?_, ?_⟩
    · simp [assertions, assertions_readEvents_append]
    · simp [quiet, quiet_readEvents_append]
  · exact ⟨h, [.put 0x72 len (payloadOf inb len)], by simp [echo, simpleserial_put, emit],
      by simp [assertions], rfl⟩
  · rw [infinite_loop_eq]
  · rw [infinite_loop_eq]
    exact ⟨rfl, _, rfl, by simp [assertions], rfl⟩

/-- Witness for C8: the handlers run from the state after reset. -/
theorem trigger_discipline_witness :
    (trigger_setup reset).P04 = 0 ∧
    Disciplined reset (glitch_loop .V2_1 .little (bufOf []) 0 reset).2 ∧
    Disciplined reset (glitch_comparison (bufOf []) 0 reset).2 ∧
    Disciplined reset (password (bufOf []) 0 reset).2 ∧
    Disciplined reset (get_data refConsts sampleDev (bufOf []) 0 reset).2 ∧
    Disciplined reset (get_rc_trim_values refConsts sampleDev (bufOf []) 0 reset).2 ∧
    Disciplined reset (echo refConsts (bufOf []) 0 reset).2 ∧
    (infinite_loop 1000 (bufOf []) 0 reset).1 = none ∧
    Disciplined reset (infinite_loop 1000 (bufOf []) 0 reset).2 :=
  trigger_discipline refConsts .V2_1 .little sampleDev (bufOf []) 0 reset 1000 rfl

end N76
